import Mathlib

/-!
Shallow embedding of the metaobject-resolution logic of the storefront
repository: the field resolvers (`getFieldValue`, `getFieldReference`,
`getFieldReferences`), the projection of reference lists into typed view
models (products in `ProductCarousel`, reviews in `ReviewsSection`), the
section-level Absent/Empty/Ready classification, the homepage loader
fallback logic, and the carousel visibility window.

JavaScript data is modelled with `Option` for nullable/absent values;
string truthiness (`""` is falsy) is made explicit where the source relies
on it.  All functions are total: a missing value degrades to the same
default the source produces, which also captures the never-throws parts of
the specification.
-/

namespace Storefront

/-- An image payload as selected by the GraphQL fragments
(`image { url altText width height }` / `featuredImage { ... }`). -/
structure ImageObj where
  url : String
  altText : Option String
  width : Option Int
  height : Option Int
deriving Repr, DecidableEq

/-- A single linked entity on a field (`reference { ... on MediaImage { image } }`).
A reference that is not a `MediaImage` carries no `image` payload, which is
modelled as `image = none`. -/
structure RefObj where
  image : Option ImageObj
deriving Repr, DecidableEq

/-- The `references(first: N) { nodes { ... } }` connection on a field.
`nodes` is kept optional to mirror the optional chaining
`field?.references?.nodes` in the source. -/
structure Connection (ν : Type) where
  nodes : Option (List ν)
deriving Repr, DecidableEq

/-- One `{ key value type reference references }` entry of a metaobject's
field list, as consumed by the components.  `ν` is the node type of the
`references` connection (products for the showcase, nested metaobjects for
reviews).  `value` is a string scalar, possibly empty. -/
structure Field (ν : Type) where
  key : String
  value : String
  ftype : String
  reference : Option RefObj
  references : Option (Connection ν)
deriving Repr, DecidableEq

/-- A metaobject: identifiers plus an ordered field list.  Both the list
itself and each entry are optional, mirroring `metaobject.fields?` and the
null-tolerant `f?.key` accesses in the source. -/
structure Metaobject (ν : Type) where
  id : String
  handle : String
  mtype : String
  fields : Option (List (Option (Field ν)))
deriving Repr, DecidableEq

/-- The boolean test the components run inside `fields?.find((f) => f?.key === key)`:
a null entry never matches, otherwise the key must be strictly equal. -/
def fieldKeyIs (key : String) (f : Option (Field ν)) : Bool :=
  match f with
  | some f => f.key == key
  | none => false

/-- `getFieldValue` of `HeroParallax`, `ProductCarousel` and `ReviewsSection`:
`metaobject.fields?.find((f) => f?.key === key)?.value || ''`. -/
def getFieldValue (m : Metaobject ν) (key : String) : String :=
  match m.fields with
  | none => ""
  | some fs =>
    match fs.find? (fieldKeyIs key) with
    | some (some f) => if f.value == "" then "" else f.value
    | _ => ""

/-- `getFieldReference` of `HeroParallax`:
`metaobject.fields?.find((f) => f?.key === key)?.reference`. -/
def getFieldReference (m : Metaobject ν) (key : String) : Option RefObj :=
  match m.fields with
  | none => none
  | some fs =>
    match fs.find? (fieldKeyIs key) with
    | some (some f) => f.reference
    | _ => none

/-- `getFieldReferences` of `ProductCarousel` and `ReviewsSection`:
`field?.references?.nodes || []` after the same `find`. -/
def getFieldReferences (m : Metaobject ν) (key : String) : List ν :=
  match m.fields with
  | none => []
  | some fs =>
    match fs.find? (fieldKeyIs key) with
    | some (some f) =>
      match f.references with
      | some conn => conn.nodes.getD []
      | none => []
    | _ => []

/-- Specification-side lookup, written the way the specification describes
it: walk the field list in order and return the first non-null field whose
key equals `k` exactly. -/
def firstFieldWithKey (fs : List (Option (Field ν))) (k : String) : Option (Field ν) :=
  match fs with
  | [] => none
  | none :: rest => firstFieldWithKey rest k
  | some f :: rest => if f.key = k then some f else firstFieldWithKey rest k

/-- The field list of a metaobject, with a missing list read as empty. -/
def fieldsOf (m : Metaobject ν) : List (Option (Field ν)) :=
  m.fields.getD []

/-- A metaobject has a field with key `k` when some non-null entry of its
field list carries that key. -/
def hasFieldWithKey (m : Metaobject ν) (k : String) : Prop :=
  ∃ f, some f ∈ fieldsOf m ∧ f.key = k

/-- `minVariantPrice { amount currencyCode }` as selected by the product
showcase query. -/
structure MoneyObj where
  amount : String
  currencyCode : String
deriving Repr, DecidableEq

/-- `priceRange { minVariantPrice }` of a product node. -/
structure PriceRangeObj where
  minVariantPrice : MoneyObj
deriving Repr, DecidableEq

/-- A node of the `products` references connection (`... on Product`).
Every member is optional: a reference that is not a `Product` produces an
object carrying none of these keys, and even on products the runtime value
is only as strong as the API response. -/
structure ProductNode where
  id : Option String
  title : Option String
  handle : Option String
  priceRange : Option PriceRangeObj
  featuredImage : Option ImageObj
deriving Repr, DecidableEq

/-- The `Product` view-model shape built by `ProductCarousel`. -/
structure ProductView where
  id : Option String
  title : Option String
  minVariantPrice : MoneyObj
  featuredImage : Option ImageObj
  handle : Option String
deriving Repr, DecidableEq

/-- JavaScript truthiness of an optional string: `undefined`, `null` and
`""` are falsy, every other string is truthy. -/
def strTruthy (o : Option String) : Bool :=
  !(o.getD "" == "")

/-- The completeness predicate of the products projection:
`node?.id && node?.title && node?.priceRange`. -/
def productPred (n : Option ProductNode) : Bool :=
  match n with
  | none => false
  | some p => strTruthy p.id && strTruthy p.title && p.priceRange.isSome

/-- Placeholder money value; only produced on inputs `productPred` rejects,
where the source would have thrown before reaching the mapper. -/
def defaultMoney : MoneyObj :=
  { amount := "", currencyCode := "" }

/-- The mapper of the products projection.  On a node that passes
`productPred` this is exactly the object literal of the source; the
defaults in the other branches are never exercised because the source
applies the mapper only to filtered nodes. -/
def productMap (n : Option ProductNode) : ProductView :=
  match n with
  | none =>
    { id := none, title := none, minVariantPrice := defaultMoney,
      featuredImage := none, handle := none }
  | some p =>
    { id := p.id
      title := p.title
      minVariantPrice := (p.priceRange.map (fun pr => pr.minVariantPrice)).getD defaultMoney
      featuredImage := p.featuredImage
      handle := p.handle }

/-- The metaobject shape consumed by `ProductCarousel`. -/
abbrev ProductMeta := Metaobject (Option ProductNode)

/-- The `products` pipeline of `ProductCarousel`:
`getFieldReferences('products').filter(...).map(...)`. -/
def productsOf (m : ProductMeta) : List ProductView :=
  ((getFieldReferences m "products").filter productPred).map productMap

/-- A review node: a nested metaobject whose fields carry `reference`
payloads but no further `references` connections. -/
abbrev ReviewNode := Metaobject Empty

/-- The metaobject shape consumed by `ReviewsSection`. -/
abbrev ReviewsMeta := Metaobject (Option ReviewNode)

/-- `getReviewImageField` of `ReviewsSection`: find the field, and if it
has a `reference` carrying an `image`, return that image URL, else `""`. -/
def getReviewImageField (n : ReviewNode) (key : String) : String :=
  match n.fields with
  | none => ""
  | some fs =>
    match fs.find? (fieldKeyIs key) with
    | some (some f) =>
      match f.reference with
      | some r =>
        match r.image with
        | some img => img.url
        | none => ""
      | none => ""
    | _ => ""

/-- Characters `encodeURIComponent` leaves as-is: ASCII alphanumerics and
the marks listed by the ECMAScript specification (codes 45 `-`, 95 `_`,
46 `.`, 33 `!`, 126 `~`, 42 `*`, 39 apostrophe, 40 and 41 parentheses). -/
def isUnreservedURIChar (c : Char) : Bool :=
  let n := c.toNat
  (48 ≤ n && n ≤ 57) || (65 ≤ n && n ≤ 90) || (97 ≤ n && n ≤ 122) ||
    n == 45 || n == 95 || n == 46 || n == 33 || n == 126 ||
    n == 42 || n == 39 || n == 40 || n == 41

/-- Uppercase hexadecimal digit for a value below 16. -/
def hexDigitChar (n : Nat) : Char :=
  if n < 10 then Char.ofNat (48 + n) else Char.ofNat (55 + n)

/-- UTF-8 byte values of a character. -/
def utf8ByteVals (c : Char) : List Nat :=
  let n := c.toNat
  if n < 128 then [n]
  else if n < 2048 then [192 + n / 64, 128 + n % 64]
  else if n < 65536 then [224 + n / 4096, 128 + n / 64 % 64, 128 + n % 64]
  else [240 + n / 262144, 128 + n / 4096 % 64, 128 + n / 64 % 64, 128 + n % 64]

/-- Percent-encoding of one byte value. -/
def percentEncodeByte (b : Nat) : String :=
  String.mk ['%', hexDigitChar (b / 16 % 16), hexDigitChar (b % 16)]

/-- Model of the JavaScript `encodeURIComponent` builtin: unreserved
characters pass through, everything else is percent-encoded per UTF-8
byte.  (Lean characters are scalar values, so the lone-surrogate error
case of the builtin cannot arise.) -/
def encodeURIComponent (s : String) : String :=
  s.data.foldl
    (fun acc c =>
      if isUnreservedURIChar c then acc.push c
      else acc ++ String.join ((utf8ByteVals c).map percentEncodeByte))
    ""

/-- The ui-avatars.com fallback avatar URL built by `ReviewsSection` from
the customer name. -/
def avatarUrl (name : String) : String :=
  "https://ui-avatars.com/api/?name=" ++ encodeURIComponent name ++
    "&background=667eea&color=fff&size=100&bold=true"

/-- ECMAScript whitespace accepted at the front of a `parseFloat` input. -/
def isJsSpace (c : Char) : Bool :=
  c == ' ' || c == '\t' || c == '\n' || c == '\r' ||
    c.toNat == 11 || c.toNat == 12 || c.toNat == 160

/-- Value of a list of decimal digit characters. -/
def digitsToNat (ds : List Char) : Nat :=
  ds.foldl (fun a c => a * 10 + (c.toNat - 48)) 0

/-- Model of the JavaScript `parseFloat` builtin over exact rationals:
longest decimal-literal prefix after leading whitespace, `none` when no
digits are found (the NaN case; the infinite cases are likewise collapsed
to `none`).  IEEE rounding of the parsed value is not modelled — the
claims touched by this function only involve exactly representable
values such as 5. -/
def jsParseFloat (s : String) : Option ℚ :=
  let cs := s.data.dropWhile isJsSpace
  let signAndRest : Int × List Char :=
    match cs with
    | c :: rest =>
      if c = '-' then (-1, rest)
      else if c = '+' then (1, rest)
      else (1, c :: rest)
    | [] => (1, [])
  let sign := signAndRest.1
  let cs1 := signAndRest.2
  let intSpan := cs1.span (fun c => c.isDigit)
  let ip := intSpan.1
  let cs2 := intSpan.2
  let fracSpan : List Char × List Char :=
    match cs2 with
    | c :: rest => if c = '.' then rest.span (fun d => d.isDigit) else ([], c :: rest)
    | [] => ([], [])
  let fp := fracSpan.1
  let cs3 := fracSpan.2
  if ip.isEmpty && fp.isEmpty then none
  else
    let mantNum : Int := sign * ((digitsToNat ip : Int) * 10 ^ fp.length + (digitsToNat fp : Int))
    let expo : Int :=
      match cs3 with
      | c :: rest =>
        if c = 'e' ∨ c = 'E' then
          let esignAndRest : Int × List Char :=
            match rest with
            | d :: r2 =>
              if d = '-' then (-1, r2)
              else if d = '+' then (1, r2)
              else (1, d :: r2)
            | [] => (1, [])
          let ed := (esignAndRest.2.span (fun d => d.isDigit)).1
          if ed.isEmpty then 0 else esignAndRest.1 * (digitsToNat ed : Int)
        else 0
      | [] => 0
    if 0 ≤ expo then
      some (mkRat (mantNum * 10 ^ expo.toNat) (10 ^ fp.length))
    else
      some (mkRat mantNum (10 ^ fp.length * 10 ^ (-expo).toNat))

/-- The `Review` view-model shape built by `ReviewsSection`.  `rating`
holds the `jsParseFloat` result. -/
structure ReviewView where
  id : String
  customerName : String
  customerRole : String
  customerImage : String
  rating : Option ℚ
  reviewText : String
deriving DecidableEq

/-- The completeness predicate of the reviews projection:
`node && node.fields` (an empty field list is a truthy array and passes). -/
def reviewPred (n : Option ReviewNode) : Bool :=
  match n with
  | none => false
  | some r => r.fields.isSome

/-- The mapper of the reviews projection, building one `Review` from a
nested review metaobject.  The `none` branch is never exercised because
the source applies the mapper only to nodes passing `reviewPred`. -/
def reviewMap (n : Option ReviewNode) : ReviewView :=
  match n with
  | none =>
    { id := "", customerName := "", customerRole := "",
      customerImage := avatarUrl "", rating := jsParseFloat "5", reviewText := "" }
  | some r =>
    let customerName := getFieldValue r "customer_name"
    let customerImage := getReviewImageField r "customer_img"
    let ratingStr := getFieldValue r "rating"
    { id := r.id
      customerName := customerName
      customerRole := getFieldValue r "customer_role"
      customerImage := if customerImage == "" then avatarUrl customerName else customerImage
      rating := jsParseFloat (if ratingStr == "" then "5" else ratingStr)
      reviewText := getFieldValue r "review_text" }

/-- The `reviews` pipeline of `ReviewsSection`:
`getFieldReferences('reviews').filter(...).map(...)`. -/
def reviewsOf (m : ReviewsMeta) : List ReviewView :=
  ((getFieldReferences m "reviews").filter reviewPred).map reviewMap

/-- The image shape `HeroParallax` narrows the background reference to. -/
structure ImageView where
  url : String
  altText : String
  width : Option Int
  height : Option Int
deriving Repr, DecidableEq

/-- The metaobject shape consumed by `HeroParallax`. -/
abbrev HeroMeta := Metaobject Empty

/-- The `backgroundImage` computation of `HeroParallax`: take the
`background_image` field reference and, when it carries an image payload,
narrow it to the image shape; otherwise `null`. -/
def backgroundImageOf (m : HeroMeta) : Option ImageView :=
  match getFieldReference m "background_image" with
  | some r =>
    match r.image with
    | some img =>
      some { url := img.url, altText := img.altText.getD "",
             width := img.width, height := img.height }
    | none => none
  | none => none

/-- Section-level outcome of a component render: `Absent` is the
diagnostic/placeholder early return for a missing metaobject or field
list, `Empty` the early return for a zero-entry projected collection,
`Ready` the main render. -/
inductive Verdict where
  | Absent : Verdict
  | Empty : Verdict
  | Ready : Verdict
deriving Repr, DecidableEq

/-- The branch structure of `ProductCarousel`: `!metaobject?.fields` →
diagnostic error state; `products.length === 0` → empty state; otherwise
the carousel renders. -/
def productCarouselRender (m : Option ProductMeta) : Verdict :=
  match m with
  | none => .Absent
  | some mo =>
    match mo.fields with
    | none => .Absent
    | some _ => if (productsOf mo).length = 0 then .Empty else .Ready

/-- The branch structure of `ReviewsSection`: `!metaobject?.fields` →
`null`; `reviews.length === 0` → `null`; otherwise the columns render. -/
def reviewsSectionRender (m : Option ReviewsMeta) : Verdict :=
  match m with
  | none => .Absent
  | some mo =>
    match mo.fields with
    | none => .Absent
    | some _ => if (reviewsOf mo).length = 0 then .Empty else .Ready

/-- `shop { name description }` of the homepage SEO query. -/
structure ShopInfo where
  name : String
  description : String
deriving Repr, DecidableEq

/-- Result value of the shop query, with a nullable `shop` slot. -/
structure ShopQueryResult where
  shop : Option ShopInfo
deriving Repr, DecidableEq

/-- Result value of a metaobject query, with a nullable `metaobject` slot. -/
structure MetaQueryResult (ν : Type) where
  metaobject : Option (Metaobject ν)
deriving Repr, DecidableEq

/-- The data shape the homepage loader returns. -/
structure LoaderData where
  shop : ShopInfo
  heroParallax : Option HeroMeta
  productShowcase : Option ProductMeta
  reviewsSection : Option ReviewsMeta
deriving DecidableEq

/-- The generic fallback shop record used by both degradation paths. -/
def defaultShop : ShopInfo :=
  { name := "Store", description := "" }

/-- A settled promise outcome: `.ok` is a fulfilled query whose value may
still carry a null payload, `.error` a rejected query with its reason. -/
abbrev Settled (α : Type) := Except String α

/-- `loadCriticalData` after `Promise.allSettled`: each slot is extracted
from its own settled outcome with a per-slot fallback, so one rejected
query never affects the other slots. -/
def loadCriticalData (shopR : Settled (Option ShopQueryResult))
    (heroR : Settled (Option (MetaQueryResult Empty)))
    (productR : Settled (Option (MetaQueryResult (Option ProductNode))))
    (reviewsR : Settled (Option (MetaQueryResult (Option ReviewNode)))) : LoaderData :=
  { shop :=
      match shopR with
      | .ok (some q) => q.shop.getD defaultShop
      | _ => defaultShop
    heroParallax :=
      match heroR with
      | .ok (some q) => q.metaobject
      | _ => none
    productShowcase :=
      match productR with
      | .ok (some q) => q.metaobject
      | _ => none
    reviewsSection :=
      match reviewsR with
      | .ok (some q) => q.metaobject
      | _ => none }

/-- The minimal valid response of the `catch` branch of the loader. -/
def fallbackLoaderData : LoaderData :=
  { shop := defaultShop, heroParallax := none,
    productShowcase := none, reviewsSection := none }

/-- The homepage `loader`: on a normal `loadCriticalData` result, defer
it; if the critical-data step throws, return the minimal valid response
instead of failing hard.  The function is total: every input produces a
`LoaderData`, which is the no-hard-failure guarantee. -/
def homeLoader (r : Except String LoaderData) : LoaderData :=
  match r with
  | .ok d => d
  | .error _ => fallbackLoaderData

/-- One entry of the visible carousel window. -/
structure VisibleEntry where
  item : ProductView
  offset : Int
  isActive : Bool
deriving DecidableEq

/-- Placeholder product view used for an out-of-range index; with a
non-empty product list every index stays in range (proved below), so this
default is never exercised there. -/
def defaultProductView : ProductView :=
  productMap none

/-- The `visibleProducts` computation of `ProductCarousel`: for offsets
-2 … 2 push `products[(currentIndex + i + products.length) % products.length]`
tagged with the offset and an active flag at offset 0.  The JavaScript `%`
is truncating division remainder, i.e. `Int.tmod`. -/
def visibleProductsOf (products : List ProductView) (currentIndex : Nat) : List VisibleEntry :=
  ([-2, -1, 0, 1, 2] : List Int).map fun i =>
    let index := Int.tmod ((currentIndex : Int) + i + (products.length : Int)) (products.length : Int)
    { item := products.getD index.toNat defaultProductView
      offset := i
      isActive := i == 0 }

/-- Generic projection step shared by both section components: filter the
reference list by a completeness predicate, then map each surviving entry
to its typed view model.  Both `productsOf` and `reviewsOf` are instances
of it. -/
def projectStep (l : List α) (p : α → Bool) (f : α → β) : List β :=
  (l.filter p).map f

/-- Concrete duplicate-key metaobject for the C1 witness. -/
def c1SampleMeta : Metaobject Empty :=
  { id := "gid1", handle := "h", mtype := "t",
    fields := some [none,
      some { key := "a", value := "x", ftype := "", reference := none, references := none },
      some { key := "a", value := "y", ftype := "", reference := none, references := none }] }

/-- A complete product node: id, title and price range all present. -/
def sampleGoodProductNode : ProductNode :=
  { id := some "gid-p1", title := some "Runner Shoe", handle := some "runner-shoe",
    priceRange := some { minVariantPrice := { amount := "10.0", currencyCode := "USD" } },
    featuredImage := none }

/-- An incomplete product node: the title is missing, so the completeness
predicate rejects it. -/
def sampleBadProductNode : ProductNode :=
  { id := some "gid-p2", title := none, handle := some "x",
    priceRange := none, featuredImage := none }

/-- Concrete reference list for the C2 witness: one complete node, one
null node and one incomplete node. -/
def c2SampleNodes : List (Option ProductNode) :=
  [some sampleGoodProductNode, none, some sampleBadProductNode]

/-- The single field of the C3 sample review node: review text only, no
`customer_name`. -/
def c3SampleField : Field Empty :=
  { key := "review_text", value := "Great product", ftype := "",
    reference := none, references := none }

/-- A review node that has a field list but no `customer_name` field. -/
def c3SampleNode : ReviewNode :=
  { id := "gid-r1", handle := "rev1", mtype := "review",
    fields := some [some c3SampleField] }

/-- The `reviews` field of the C3 sample metaobject, holding the single
name-less node. -/
def c3SampleReviewsField : Field (Option ReviewNode) :=
  { key := "reviews", value := "", ftype := "", reference := none,
    references := some { nodes := some [some c3SampleNode] } }

/-- A reviews metaobject whose references list contains exactly the node
missing `customer_name`. -/
def c3SampleMeta : ReviewsMeta :=
  { id := "gid-m1", handle := "what-our-customers-say", mtype := "section_reviews",
    fields := some [some c3SampleReviewsField] }

/-- A product-showcase metaobject whose field list exists but is empty, so
the projected collection is empty. -/
def c4SampleMeta : ProductMeta :=
  { id := "gid-m4", handle := "our-products", mtype := "section_product_showcase",
    fields := some [] }

/-- A product-showcase metaobject for the C5 witness. -/
def c5SampleProductMeta : ProductMeta :=
  { id := "gid-m5", handle := "our-products", mtype := "section_product_showcase",
    fields := some [] }

/-- A fulfilled product-query value carrying the C5 sample metaobject. -/
def c5SampleQuery : MetaQueryResult (Option ProductNode) :=
  { metaobject := some c5SampleProductMeta }

/-- A background image payload for the C6 witness. -/
def c6SampleImage : ImageObj :=
  { url := "https://cdn.example.com/bg.png", altText := some "bg",
    width := some 100, height := some 50 }

/-- A `background_image` field whose reference carries an image. -/
def c6SampleField : Field Empty :=
  { key := "background_image", value := "", ftype := "",
    reference := some { image := some c6SampleImage }, references := none }

/-- A hero metaobject with a complete background image. -/
def c6SampleMeta : HeroMeta :=
  { id := "gid-m6", handle := "welcome-to-sneaker-store", mtype := "section_hero_parallax",
    fields := some [some c6SampleField] }

/-- A `products` field with no `references` connection at all. -/
def c7SampleField : Field (Option ProductNode) :=
  { key := "products", value := "", ftype := "", reference := none, references := none }

/-- A product-showcase metaobject whose `products` field has no references. -/
def c7SampleMeta : ProductMeta :=
  { id := "gid-m7", handle := "our-products", mtype := "section_product_showcase",
    fields := some [some c7SampleField] }

/-- Default window entry used with `List.getD` when stating facts about
the visible carousel window. -/
def defaultVisibleEntry : VisibleEntry :=
  { item := defaultProductView, offset := 0, isActive := false }

/-- A concrete two-product list for the C9 witness (shorter than the
5-entry window, so products repeat). -/
def c9SampleProducts : List ProductView :=
  [productMap (some sampleGoodProductNode), productMap none]

/-- The explicit `rating` field of the C10 sample node. -/
def c10SampleField : Field Empty :=
  { key := "rating", value := "4.5", ftype := "", reference := none, references := none }

/-- A review node carrying an explicit non-empty rating value. -/
def c10SampleNode : ReviewNode :=
  { id := "gid-r10", handle := "rev10", mtype := "review",
    fields := some [some c10SampleField] }

theorem find_fieldKeyIs_eq (fs : List (Option (Field ν))) (k : String) :
    (fs.find? (fieldKeyIs k)) = (firstFieldWithKey fs k).map some := by
  induction fs with
  | nil => rfl
  | cons hd tl ih =>
    cases hd with
    | none => simpa [List.find?, fieldKeyIs, firstFieldWithKey] using ih
    | some f =>
      by_cases hk : f.key = k
      · have hb : fieldKeyIs k (some f) = true := by simp [fieldKeyIs, hk]
        simp [List.find?_cons_of_pos _ hb, firstFieldWithKey, hk]
      · have hb : ¬ fieldKeyIs k (some f) = true := by simp [fieldKeyIs, hk]
        simpa [List.find?_cons_of_neg _ hb, firstFieldWithKey, hk] using ih

theorem firstFieldWithKey_key (fs : List (Option (Field ν))) (k : String) (f : Field ν)
    (h : firstFieldWithKey fs k = some f) : f.key = k := by
  induction fs with
  | nil => simp [firstFieldWithKey] at h
  | cons hd tl ih =>
    cases hd with
    | none => exact ih (by simpa [firstFieldWithKey] using h)
    | some g =>
      by_cases hk : g.key = k
      · rw [firstFieldWithKey] at h
        simp [hk] at h
        simpa [← h] using hk
      · exact ih (by simpa [firstFieldWithKey, hk] using h)

theorem firstFieldWithKey_isNone_iff (fs : List (Option (Field ν))) (k : String) :
    firstFieldWithKey fs k = none ↔ ∀ f, some f ∈ fs → f.key ≠ k := by
  induction fs with
  | nil => simp [firstFieldWithKey]
  | cons hd tl ih =>
    cases hd with
    | none => simpa [firstFieldWithKey] using ih
    | some g =>
      by_cases hk : g.key = k
      · simp [firstFieldWithKey, hk]
      · simp only [firstFieldWithKey, if_neg hk, ih, List.mem_cons]
        constructor
        · intro h f hf
          rcases hf with hf | hf
          · injection hf with hfg
            subst hfg
            exact hk
          · exact h f hf
        · intro h f hf
          exact h f (Or.inr hf)

theorem firstFieldWithKey_mem (fs : List (Option (Field ν))) (k : String) (f : Field ν)
    (h : firstFieldWithKey fs k = some f) : some f ∈ fs := by
  induction fs with
  | nil => simp [firstFieldWithKey] at h
  | cons hd tl ih =>
    cases hd with
    | none =>
      exact List.mem_cons_of_mem _ (ih (by simpa [firstFieldWithKey] using h))
    | some g =>
      by_cases hk : g.key = k
      · rw [firstFieldWithKey] at h
        simp only [if_pos hk] at h
        simp [← h]
      · exact List.mem_cons_of_mem _ (ih (by simpa [firstFieldWithKey, hk] using h))

theorem firstFieldWithKey_append (l₁ : List (Option (Field ν))) (f : Field ν)
    (l₂ : List (Option (Field ν))) (k : String) (hf : f.key = k)
    (hcl : ∀ g, some g ∈ l₁ → g.key ≠ k) :
    firstFieldWithKey (l₁ ++ some f :: l₂) k = some f := by
  induction l₁ with
  | nil => simp [firstFieldWithKey, hf]
  | cons hd tl ih =>
    cases hd with
    | none =>
      rw [List.cons_append, firstFieldWithKey]
      exact ih fun g hg => hcl g (List.mem_cons_of_mem _ hg)
    | some g =>
      have hg : g.key ≠ k := hcl g (List.mem_cons_self _ _)
      rw [List.cons_append, firstFieldWithKey, if_neg hg]
      exact ih fun g hg => hcl g (List.mem_cons_of_mem _ hg)

theorem getFieldValue_eq_first (m : Metaobject ν) (k : String) :
    getFieldValue m k = ((firstFieldWithKey (fieldsOf m) k).map (fun f => f.value)).getD "" := by
  cases hm : m.fields with
  | none => simp [getFieldValue, fieldsOf, hm, firstFieldWithKey]
  | some fs =>
    simp only [getFieldValue, fieldsOf, hm, Option.getD_some, find_fieldKeyIs_eq]
    cases hf : firstFieldWithKey fs k with
    | none => simp
    | some f =>
      by_cases hv : f.value = "" <;> simp [hv]

/-- C1: for every metaobject and key, the field-value resolver returns the
value of the first field whose key matches exactly (first match wins over
duplicates), and it returns `""` iff no field with that key exists or the
first matching field's value is `""`; otherwise it returns that value
exactly.  Totality of `getFieldValue` captures that the source never
throws here. -/
theorem c1_getFieldValue_spec (m : Metaobject ν) (k : String) :
    (∀ l₁ (f : Field ν) l₂, m.fields = some (l₁ ++ some f :: l₂) → f.key = k →
        (∀ g, some g ∈ l₁ → g.key ≠ k) → getFieldValue m k = f.value)
    ∧ (getFieldValue m k = "" ↔
        (¬ hasFieldWithKey m k ∨
          ∃ f, firstFieldWithKey (fieldsOf m) k = some f ∧ f.value = "")) := by
  constructor
  · intro l₁ f l₂ hm hf hcl
    rw [getFieldValue_eq_first, fieldsOf, hm]
    rw [Option.getD_some, firstFieldWithKey_append l₁ f l₂ k hf hcl]
    rfl
  · rw [getFieldValue_eq_first]
    cases hf : firstFieldWithKey (fieldsOf m) k with
    | none =>
      constructor
      · intro _
        left
        rintro ⟨f, hmem, hkey⟩
        exact ((firstFieldWithKey_isNone_iff _ _).mp hf f hmem) hkey
      · intro _
        rfl
    | some f =>
      constructor
      · intro hv
        right
        exact ⟨f, rfl, hv⟩
      · rintro (hno | ⟨g, hg, hv⟩)
        · exact absurd (show hasFieldWithKey m k from
            ⟨f, firstFieldWithKey_mem _ _ _ hf, firstFieldWithKey_key _ _ _ hf⟩) hno
        · injection hg with hg
          subst hg
          exact hv

/-- Witness for C1 at a concrete metaobject with a null entry and a
duplicate key: the first matching value wins, and a missing key yields
`""`. -/
theorem c1_witness :
    getFieldValue c1SampleMeta "a" = "x" ∧ getFieldValue c1SampleMeta "b" = "" := by
  constructor
  · exact (c1_getFieldValue_spec c1SampleMeta "a").1 [none]
      { key := "a", value := "x", ftype := "", reference := none, references := none }
      [some { key := "a", value := "y", ftype := "", reference := none, references := none }]
      rfl rfl (by simp)
  · exact (c1_getFieldValue_spec c1SampleMeta "b").2.mpr
      (Or.inl (by
        rintro ⟨f, hmem, hkey⟩
        simp only [c1SampleMeta, fieldsOf, Option.getD_some, List.mem_cons,
          List.not_mem_nil, or_false, reduceCtorEq, false_or] at hmem
        rcases hmem with h | h <;> injection h with h <;> subst h <;> simp at hkey))

/-- C2: the projection step never grows the list, keeps surviving entries
in input order (it is a sublist of the fully mapped input), and every
output entry is the image of an input entry satisfying the predicate, so
an entry failing the predicate never contributes an output; the two
section pipelines are instances of the step, and the product predicate
accepts exactly the nodes with truthy id, truthy title and a present
price range. -/
theorem c2_projection_spec :
    (∀ (α β : Type) (l : List α) (p : α → Bool) (f : α → β),
        (projectStep l p f).length ≤ l.length
        ∧ List.Sublist (projectStep l p f) (l.map f)
        ∧ ∀ y ∈ projectStep l p f, ∃ x ∈ l, p x = true ∧ y = f x)
    ∧ (∀ m : ProductMeta,
        productsOf m = projectStep (getFieldReferences m "products") productPred productMap)
    ∧ (∀ m : ReviewsMeta,
        reviewsOf m = projectStep (getFieldReferences m "reviews") reviewPred reviewMap)
    ∧ (∀ n : Option ProductNode, productPred n = true ↔
        ∃ p, n = some p ∧ strTruthy p.id = true ∧ strTruthy p.title = true
          ∧ p.priceRange.isSome = true) := by
  refine ⟨?_, fun _ => rfl, fun _ => rfl, ?_⟩
  · intro α β l p f
    refine ⟨?_, ?_, ?_⟩
    · rw [projectStep, List.length_map]
      exact List.length_filter_le p l
    · exact List.Sublist.map f (List.filter_sublist l)
    · intro y hy
      rw [projectStep, List.mem_map] at hy
      obtain ⟨x, hx, rfl⟩ := hy
      rw [List.mem_filter] at hx
      exact ⟨x, hx.1, hx.2, rfl⟩
  · intro n
    cases n with
    | none => simp [productPred]
    | some p =>
      simp only [productPred, Bool.and_eq_true]
      constructor
      · intro h
        exact ⟨p, rfl, h.1.1, h.1.2, h.2⟩
      · rintro ⟨q, hq, h1, h2, h3⟩
        injection hq with hq
        subst hq
        exact ⟨⟨h1, h2⟩, h3⟩

/-- Witness for C2 at a concrete node list: the projection is no longer
than the input, and its sole surviving entry arises from a node passing
the completeness predicate. -/
theorem c2_witness :
    (projectStep c2SampleNodes productPred productMap).length ≤ c2SampleNodes.length
    ∧ ∃ x ∈ c2SampleNodes, productPred x = true
        ∧ productMap (some sampleGoodProductNode) = productMap x :=
  ⟨(c2_projection_spec.1 (Option ProductNode) ProductView c2SampleNodes productPred productMap).1,
   (c2_projection_spec.1 (Option ProductNode) ProductView c2SampleNodes productPred productMap).2.2
     (productMap (some sampleGoodProductNode)) (by decide)⟩

/-- Counterexample to C3 as stated: at a reviews metaobject whose single
entry has a field list but no `customer_name` field, the resolver keeps
the entry (length 1, not 0), with an empty customer name and the
ui-avatars placeholder URL — so the entry is not dropped and does appear
with a placeholder value. -/
theorem c3_counterexample :
    (reviewsOf c3SampleMeta).length = 1
    ∧ (reviewsOf c3SampleMeta).map (fun r => r.customerName) = [""]
    ∧ (reviewsOf c3SampleMeta).map (fun r => r.customerImage) =
        ["https://ui-avatars.com/api/?name=&background=667eea&color=fff&size=100&bold=true"] := by
  refine ⟨rfl, rfl, ?_⟩
  decide

/-- C3 amended: an entry whose node has a field list is kept even without
a `customer_name` field — it appears with customer name `""` and, when it
also carries no customer image, with the ui-avatars placeholder URL for
the empty name; surviving entries keep their original relative order
(sublist of the mapped input), and only nodes without a field list are
dropped. -/
theorem c3_amended_spec (m : ReviewsMeta) :
    List.Sublist (reviewsOf m) ((getFieldReferences m "reviews").map reviewMap)
    ∧ ∀ n : ReviewNode, some n ∈ getFieldReferences m "reviews" →
        n.fields.isSome = true →
        reviewMap (some n) ∈ reviewsOf m
        ∧ (firstFieldWithKey (fieldsOf n) "customer_name" = none →
            (reviewMap (some n)).customerName = ""
            ∧ (getReviewImageField n "customer_img" = "" →
                (reviewMap (some n)).customerImage = avatarUrl "")) := by
  constructor
  · exact List.Sublist.map reviewMap (List.filter_sublist _)
  · intro n hmem hfields
    have hpred : reviewPred (some n) = true := by
      simp [reviewPred, hfields]
    have hmem2 : reviewMap (some n) ∈ reviewsOf m := by
      rw [reviewsOf, List.mem_map]
      exact ⟨some n, List.mem_filter.mpr ⟨hmem, hpred⟩, rfl⟩
    refine ⟨hmem2, ?_⟩
    intro hnone
    have hname : getFieldValue n "customer_name" = "" := by
      rw [getFieldValue_eq_first, hnone]
      rfl
    constructor
    · simp [reviewMap, hname]
    · intro himg
      simp [reviewMap, hname, himg]

/-- Witness for the amended C3 at the concrete metaobject of the
counterexample: the name-less entry is a member of the resolved list with
an empty name and the placeholder avatar. -/
theorem c3_witness :
    reviewMap (some c3SampleNode) ∈ reviewsOf c3SampleMeta
    ∧ (reviewMap (some c3SampleNode)).customerName = ""
    ∧ (reviewMap (some c3SampleNode)).customerImage = avatarUrl "" := by
  have h := (c3_amended_spec c3SampleMeta).2 c3SampleNode (by decide) (by decide)
  have h2 := h.2 (by decide)
  exact ⟨h.1, h2.1, h2.2 (by decide)⟩

/-- C4: a missing metaobject or missing field list yields the `Absent`
(diagnostic/placeholder) verdict in both section components, a present
field list with a zero-entry projected collection yields `Empty`, and
`Absent` occurs exactly when the field list itself is missing.  Totality
of the render functions captures that no field accessor throws. -/
theorem c4_classification_spec :
    productCarouselRender none = Verdict.Absent
    ∧ reviewsSectionRender none = Verdict.Absent
    ∧ (∀ mo : ProductMeta, mo.fields = none →
        productCarouselRender (some mo) = Verdict.Absent)
    ∧ (∀ mo : ReviewsMeta, mo.fields = none →
        reviewsSectionRender (some mo) = Verdict.Absent)
    ∧ (∀ mo : ProductMeta, mo.fields.isSome = true → (productsOf mo).length = 0 →
        productCarouselRender (some mo) = Verdict.Empty)
    ∧ (∀ mo : ReviewsMeta, mo.fields.isSome = true → (reviewsOf mo).length = 0 →
        reviewsSectionRender (some mo) = Verdict.Empty)
    ∧ (∀ m : Option ProductMeta, productCarouselRender m = Verdict.Absent ↔
        m = none ∨ ∃ mo, m = some mo ∧ mo.fields = none)
    ∧ (∀ m : Option ReviewsMeta, reviewsSectionRender m = Verdict.Absent ↔
        m = none ∨ ∃ mo, m = some mo ∧ mo.fields = none) := by
  refine ⟨rfl, rfl, ?_, ?_, ?_, ?_, ?_, ?_⟩
  · intro mo h
    simp [productCarouselRender, h]
  · intro mo h
    simp [reviewsSectionRender, h]
  · intro mo h hlen
    obtain ⟨fs, hfs⟩ := Option.isSome_iff_exists.mp h
    simp [productCarouselRender, hfs, hlen]
  · intro mo h hlen
    obtain ⟨fs, hfs⟩ := Option.isSome_iff_exists.mp h
    simp [reviewsSectionRender, hfs, hlen]
  · intro m
    cases m with
    | none => simp [productCarouselRender]
    | some mo =>
      cases hf : mo.fields with
      | none => simp [productCarouselRender, hf]
      | some fs =>
        simp only [productCarouselRender, hf]
        constructor
        · intro h
          by_cases hlen : (productsOf mo).length = 0 <;> simp [hlen] at h
        · rintro (h | ⟨mo2, hmo, hnone⟩)
          · exact absurd h (by simp)
          · injection hmo with hmo
            subst hmo
            rw [hf] at hnone
            exact absurd hnone (by simp)
  · intro m
    cases m with
    | none => simp [reviewsSectionRender]
    | some mo =>
      cases hf : mo.fields with
      | none => simp [reviewsSectionRender, hf]
      | some fs =>
        simp only [reviewsSectionRender, hf]
        constructor
        · intro h
          by_cases hlen : (reviewsOf mo).length = 0 <;> simp [hlen] at h
        · rintro (h | ⟨mo2, hmo, hnone⟩)
          · exact absurd h (by simp)
          · injection hmo with hmo
            subst hmo
            rw [hf] at hnone
            exact absurd hnone (by simp)

/-- Witness for C4 at concrete metaobjects: a present but empty field list
with zero projected products gives the empty state. -/
theorem c4_witness :
    productCarouselRender (some c4SampleMeta) = Verdict.Empty :=
  c4_classification_spec.2.2.2.2.1 c4SampleMeta rfl rfl

/-- C5: the loader slots are settled independently — with the hero query
rejected and the product query fulfilled with a metaobject, the page data
carries that product metaobject and a null hero slot (and the loader
returns normally); and when the aggregate critical-data step throws, the
loader still returns the minimal valid response: the generic
`Store` shop record and all section slots null. -/
theorem c5_loader_spec (shopR : Settled (Option ShopQueryResult))
    (reviewsR : Settled (Option (MetaQueryResult (Option ReviewNode))))
    (e : String) (pq : MetaQueryResult (Option ProductNode)) (pm : ProductMeta)
    (hpm : pq.metaobject = some pm) :
    (homeLoader (Except.ok (loadCriticalData shopR (Except.error e)
        (Except.ok (some pq)) reviewsR))).productShowcase = some pm
    ∧ (homeLoader (Except.ok (loadCriticalData shopR (Except.error e)
        (Except.ok (some pq)) reviewsR))).heroParallax = none
    ∧ (∀ err : String, homeLoader (Except.error err) = fallbackLoaderData)
    ∧ fallbackLoaderData.shop = { name := "Store", description := "" }
    ∧ fallbackLoaderData.heroParallax = none
    ∧ fallbackLoaderData.productShowcase = none
    ∧ fallbackLoaderData.reviewsSection = none := by
  refine ⟨?_, rfl, fun _ => rfl, rfl, rfl, rfl, rfl⟩
  simp [homeLoader, loadCriticalData, hpm]

/-- Witness for C5 at concrete settled outcomes: hero rejected, product
fulfilled — the product slot carries the metaobject, the hero slot is
null. -/
theorem c5_witness :
    (homeLoader (Except.ok (loadCriticalData (Except.ok none) (Except.error "hero down")
        (Except.ok (some c5SampleQuery)) (Except.error "reviews down")))).productShowcase
      = some c5SampleProductMeta
    ∧ (homeLoader (Except.ok (loadCriticalData (Except.ok none) (Except.error "hero down")
        (Except.ok (some c5SampleQuery)) (Except.error "reviews down")))).heroParallax
      = none :=
  ⟨(c5_loader_spec (Except.ok none) (Except.error "reviews down") "hero down"
      c5SampleQuery c5SampleProductMeta rfl).1,
   (c5_loader_spec (Except.ok none) (Except.error "reviews down") "hero down"
      c5SampleQuery c5SampleProductMeta rfl).2.1⟩

theorem getFieldReference_eq_first (m : Metaobject ν) (k : String) :
    getFieldReference m k = (firstFieldWithKey (fieldsOf m) k).bind (fun f => f.reference) := by
  cases hm : m.fields with
  | none => simp [getFieldReference, fieldsOf, hm, firstFieldWithKey]
  | some fs =>
    simp only [getFieldReference, fieldsOf, hm, Option.getD_some, find_fieldKeyIs_eq]
    cases hf : firstFieldWithKey fs k with
    | none => simp
    | some f => simp

/-- C6: the single-reference resolver agrees with the specification-side
first-match lookup composed with the `reference` projection (so a missing
field or a missing reference both give the absent value), the background
image is absent exactly when the field is missing, carries no reference,
or its reference carries no image payload, and otherwise it is the
reference narrowed to the image shape.  Totality captures that it never
throws. -/
theorem c6_backgroundImage_spec (m : HeroMeta) (k : String) :
    getFieldReference m k = (firstFieldWithKey (fieldsOf m) k).bind (fun f => f.reference)
    ∧ (backgroundImageOf m = none ↔
        (getFieldReference m "background_image" = none
          ∨ ∃ r, getFieldReference m "background_image" = some r ∧ r.image = none))
    ∧ (∀ r img, getFieldReference m "background_image" = some r → r.image = some img →
        backgroundImageOf m = some
          { url := img.url, altText := img.altText.getD "",
            width := img.width, height := img.height }) := by
  refine ⟨getFieldReference_eq_first m k, ?_, ?_⟩
  · cases hr : getFieldReference m "background_image" with
    | none => simp [backgroundImageOf, hr]
    | some r =>
      cases hi : r.image with
      | none => simp [backgroundImageOf, hr, hi]
      | some img =>
        simp only [backgroundImageOf, hr, hi]
        constructor
        · intro h
          exact absurd h (by simp)
        · rintro (h | ⟨r2, hr2, hi2⟩)
          · exact absurd h (by simp)
          · injection hr2 with hr2
            subst hr2
            rw [hi] at hi2
            exact absurd hi2 (by simp)
  · intro r img hr hi
    simp [backgroundImageOf, hr, hi]

/-- Witness for C6 at a concrete hero metaobject with a complete
background image reference: the narrowed image shape is returned. -/
theorem c6_witness :
    backgroundImageOf c6SampleMeta = some
      { url := "https://cdn.example.com/bg.png",
        altText := "bg", width := some 100, height := some 50 } :=
  (c6_backgroundImage_spec c6SampleMeta "background_image").2.2
    { image := some c6SampleImage } c6SampleImage rfl rfl

theorem getFieldReferences_eq_first (m : Metaobject ν) (k : String) :
    getFieldReferences m k =
      (((firstFieldWithKey (fieldsOf m) k).bind (fun f => f.references)).bind
        (fun conn => conn.nodes)).getD [] := by
  cases hm : m.fields with
  | none => simp [getFieldReferences, fieldsOf, hm, firstFieldWithKey]
  | some fs =>
    simp only [getFieldReferences, fieldsOf, hm, Option.getD_some, find_fieldKeyIs_eq]
    cases hf : firstFieldWithKey fs k with
    | none => simp
    | some f =>
      cases hr : f.references with
      | none => simp [hr]
      | some conn => simp [hr]

/-- C7: the reference-list resolver is a total list-valued function (never
null/undefined); it agrees with the specification-side lookup composed
with the `references`/`nodes` projections, and the three absent/empty
cases — no matching field, a matching field with no references
connection, and a connection whose node list is null or empty — all
produce the empty list, making them indistinguishable to the caller. -/
theorem c7_getFieldReferences_spec (m : Metaobject ν) (k : String) :
    getFieldReferences m k =
      (((firstFieldWithKey (fieldsOf m) k).bind (fun f => f.references)).bind
        (fun conn => conn.nodes)).getD []
    ∧ (firstFieldWithKey (fieldsOf m) k = none → getFieldReferences m k = [])
    ∧ (∀ f, firstFieldWithKey (fieldsOf m) k = some f → f.references = none →
        getFieldReferences m k = [])
    ∧ (∀ f conn, firstFieldWithKey (fieldsOf m) k = some f → f.references = some conn →
        (conn.nodes = none ∨ conn.nodes = some []) → getFieldReferences m k = []) := by
  refine ⟨getFieldReferences_eq_first m k, ?_, ?_, ?_⟩
  · intro h
    rw [getFieldReferences_eq_first, h]
    rfl
  · intro f hf hr
    rw [getFieldReferences_eq_first, hf]
    simp [hr]
  · intro f conn hf hr hn
    rw [getFieldReferences_eq_first, hf]
    rcases hn with hn | hn <;> simp [hr, hn]

/-- Witness for C7 at a concrete metaobject whose `products` field has no
references connection: the resolver yields the empty list. -/
theorem c7_witness :
    getFieldReferences c7SampleMeta "products" = [] :=
  (c7_getFieldReferences_spec c7SampleMeta "products").2.2.1 c7SampleField rfl rfl

theorem avatarUrl_ne_empty (name : String) : avatarUrl name ≠ "" := by
  intro h
  have h2 := congrArg String.length h
  rw [avatarUrl, String.length_append, String.length_append] at h2
  have hp : 0 < ("https://ui-avatars.com/api/?name=" : String).length := by decide
  have hz : ("" : String).length = 0 := rfl
  rw [hz] at h2
  omega

theorem getReviewImageField_eq_first (n : ReviewNode) (k : String) :
    getReviewImageField n k =
      ((((firstFieldWithKey (fieldsOf n) k).bind (fun f => f.reference)).bind
        (fun r => r.image)).map (fun img => img.url)).getD "" := by
  cases hm : n.fields with
  | none => simp [getReviewImageField, fieldsOf, hm, firstFieldWithKey]
  | some fs =>
    simp only [getReviewImageField, fieldsOf, hm, Option.getD_some, find_fieldKeyIs_eq]
    cases hf : firstFieldWithKey fs k with
    | none => simp
    | some f =>
      cases hr : f.reference with
      | none => simp [hr]
      | some r =>
        cases hi : r.image with
        | none => simp [hr, hi]
        | some img => simp [hr, hi]

/-- C8: every resolved review carries a non-empty `customerImage`; when
the customer image resolves to the empty string — in particular whenever
the `customer_img` field is missing, has no reference, or its reference
carries no image — the image is the ui-avatars URL derived from the
URL-encoded customer name. -/
theorem c8_avatar_spec (m : ReviewsMeta) :
    (∀ r ∈ reviewsOf m, r.customerImage ≠ "")
    ∧ (∀ n : ReviewNode, getReviewImageField n "customer_img" = "" →
        (reviewMap (some n)).customerImage = avatarUrl (getFieldValue n "customer_name"))
    ∧ (∀ n : ReviewNode,
        (firstFieldWithKey (fieldsOf n) "customer_img" = none
          ∨ (∃ f, firstFieldWithKey (fieldsOf n) "customer_img" = some f ∧ f.reference = none)
          ∨ (∃ f r, firstFieldWithKey (fieldsOf n) "customer_img" = some f ∧
              f.reference = some r ∧ r.image = none)) →
        getReviewImageField n "customer_img" = "") := by
  refine ⟨?_, ?_, ?_⟩
  · intro r hr
    rw [reviewsOf, List.mem_map] at hr
    obtain ⟨x, hx, rfl⟩ := hr
    cases x with
    | none => simpa [reviewMap] using avatarUrl_ne_empty ""
    | some n =>
      by_cases hImg : getReviewImageField n "customer_img" = ""
      · simp only [reviewMap]
        simp only [hImg, beq_self_eq_true, if_true]
        exact avatarUrl_ne_empty (getFieldValue n "customer_name")
      · have hb : ¬((getReviewImageField n "customer_img" == "") = true) := by
          simpa using hImg
        simp only [reviewMap, if_neg hb]
        exact hImg
  · intro n h
    simp [reviewMap, h]
  · intro n hcases
    rw [getReviewImageField_eq_first]
    rcases hcases with h | ⟨f, hf, hr⟩ | ⟨f, r, hf, hr, hi⟩
    · rw [h]
      rfl
    · rw [hf]
      simp [hr]
    · rw [hf]
      simp [hr, hi]

/-- Witness for C8 at the concrete name-less review node: its resolved
image is non-empty and equals the ui-avatars URL for its (empty) customer
name. -/
theorem c8_witness :
    (reviewMap (some c3SampleNode)).customerImage ≠ ""
    ∧ (reviewMap (some c3SampleNode)).customerImage =
        avatarUrl (getFieldValue c3SampleNode "customer_name") :=
  ⟨(c8_avatar_spec c3SampleMeta).1 (reviewMap (some c3SampleNode)) (by decide),
   (c8_avatar_spec c3SampleMeta).2.1 c3SampleNode (by decide)⟩

theorem tmod_eq_emod_of (a n : Int) (hn : 0 < n) (h : 0 ≤ a ∨ n = 1) :
    Int.tmod a n = a % n := by
  rcases h with ha | rfl
  · exact Int.tmod_eq_emod ha hn.le
  · rw [Int.tmod_one, Int.emod_one]

theorem visible_entry_at (products : List ProductView) (ci : Nat) (i : Int)
    (hn : 0 < products.length)
    (hi : 0 ≤ (ci : Int) + i + (products.length : Int) ∨ (products.length : Int) = 1) :
    Int.tmod ((ci : Int) + i + (products.length : Int)) ((products.length : Int))
      = ((ci : Int) + i + (products.length : Int)) % ((products.length : Int))
    ∧ ((((ci : Int) + i + (products.length : Int)) % ((products.length : Int))).toNat
        < products.length) := by
  have hnI : (0 : Int) < (products.length : Int) := by exact_mod_cast hn
  constructor
  · exact tmod_eq_emod_of _ _ hnI hi
  · have h1 := Int.emod_lt_of_pos ((ci : Int) + i + (products.length : Int)) hnI
    have h2 := Int.emod_nonneg ((ci : Int) + i + (products.length : Int)) hnI.ne'
    omega

/-- C9: with a non-empty product list, the visible window has exactly five
entries whose offsets are -2 … 2 in that order, exactly the middle
(offset 0) entry is active, and the entry at window position `i + 2`
displays `products[(currentIndex + i + n) mod n]` — so products repeat in
the window when fewer than five exist. -/
theorem c9_visibleProducts_spec (products : List ProductView) (ci : Nat)
    (h : 0 < products.length) :
    (visibleProductsOf products ci).length = 5
    ∧ (visibleProductsOf products ci).map (fun v => v.offset) = [-2, -1, 0, 1, 2]
    ∧ (visibleProductsOf products ci).map (fun v => v.isActive)
        = [false, false, true, false, false]
    ∧ ∀ i : Int, -2 ≤ i → i ≤ 2 →
        (((visibleProductsOf products ci).getD (i + 2).toNat defaultVisibleEntry).offset = i
        ∧ ((((ci : Int) + i + (products.length : Int)) % ((products.length : Int))).toNat
            < products.length
        ∧ ((visibleProductsOf products ci).getD (i + 2).toNat defaultVisibleEntry).item =
            products.getD ((((ci : Int) + i + (products.length : Int))
              % ((products.length : Int))).toNat) defaultProductView)) := by
  have hci : (0 : Int) ≤ (ci : Int) := Int.natCast_nonneg ci
  have hnI : (0 : Int) < (products.length : Int) := by exact_mod_cast h
  refine ⟨rfl, rfl, rfl, ?_⟩
  intro i h1 h2
  interval_cases i
  · obtain ⟨htm, hbound⟩ := visible_entry_at products ci (-2) h (by omega)
    refine ⟨rfl, hbound, ?_⟩
    show products.getD (Int.tmod ((ci : Int) + (-2) + (products.length : Int))
        ((products.length : Int))).toNat defaultProductView = _
    rw [htm]
  · obtain ⟨htm, hbound⟩ := visible_entry_at products ci (-1) h (by omega)
    refine ⟨rfl, hbound, ?_⟩
    show products.getD (Int.tmod ((ci : Int) + (-1) + (products.length : Int))
        ((products.length : Int))).toNat defaultProductView = _
    rw [htm]
  · obtain ⟨htm, hbound⟩ := visible_entry_at products ci 0 h (by omega)
    refine ⟨rfl, hbound, ?_⟩
    show products.getD (Int.tmod ((ci : Int) + 0 + (products.length : Int))
        ((products.length : Int))).toNat defaultProductView = _
    rw [htm]
  · obtain ⟨htm, hbound⟩ := visible_entry_at products ci 1 h (by omega)
    refine ⟨rfl, hbound, ?_⟩
    show products.getD (Int.tmod ((ci : Int) + 1 + (products.length : Int))
        ((products.length : Int))).toNat defaultProductView = _
    rw [htm]
  · obtain ⟨htm, hbound⟩ := visible_entry_at products ci 2 h (by omega)
    refine ⟨rfl, hbound, ?_⟩
    show products.getD (Int.tmod ((ci : Int) + 2 + (products.length : Int))
        ((products.length : Int))).toNat defaultProductView = _
    rw [htm]

/-- Witness for C9 at a concrete two-product list and current index 1: the
window has five entries and position 0 shows the wrapped-around product. -/
theorem c9_witness :
    (visibleProductsOf c9SampleProducts 1).length = 5
    ∧ ((visibleProductsOf c9SampleProducts 1).getD ((-2 + 2 : Int)).toNat
        defaultVisibleEntry).item =
      c9SampleProducts.getD (((((1 : Nat) : Int) + (-2) + (c9SampleProducts.length : Int))
        % ((c9SampleProducts.length : Int))).toNat) defaultProductView :=
  ⟨(c9_visibleProducts_spec c9SampleProducts 1 (by decide)).1,
   ((c9_visibleProducts_spec c9SampleProducts 1 (by decide)).2.2.2 (-2)
     (by decide) (by decide)).2.2⟩

/-- C10: for a surviving review node, a missing `rating` field or an empty
rating value resolves to the parse of the default string `"5"`, which is
the rational 5; a non-empty rating value resolves to its own parse. -/
theorem c10_rating_spec (n : ReviewNode) :
    ((firstFieldWithKey (fieldsOf n) "rating" = none
        ∨ (∃ f, firstFieldWithKey (fieldsOf n) "rating" = some f ∧ f.value = "")) →
      (reviewMap (some n)).rating = jsParseFloat "5" ∧ jsParseFloat "5" = some 5)
    ∧ (∀ f, firstFieldWithKey (fieldsOf n) "rating" = some f → f.value ≠ "" →
        (reviewMap (some n)).rating = jsParseFloat f.value) := by
  constructor
  · intro hcases
    have hv : getFieldValue n "rating" = "" := by
      rw [getFieldValue_eq_first]
      rcases hcases with h | ⟨f, hf, hval⟩
      · rw [h]
        rfl
      · rw [hf]
        simpa using hval
    refine ⟨?_, by decide⟩
    simp [reviewMap, hv]
  · intro f hf hval
    have hv : getFieldValue n "rating" = f.value := by
      rw [getFieldValue_eq_first, hf]
      rfl
    simp [reviewMap, hv, hval]

/-- Witness for C10 at two concrete nodes: the name-less node (no rating
field) resolves to rating 5, and the node with rating value `"4.5"`
resolves to the parse of `"4.5"`. -/
theorem c10_witness :
    ((reviewMap (some c3SampleNode)).rating = jsParseFloat "5"
      ∧ jsParseFloat "5" = some 5)
    ∧ (reviewMap (some c10SampleNode)).rating = jsParseFloat "4.5" :=
  ⟨(c10_rating_spec c3SampleNode).1 (Or.inl (by decide)),
   (c10_rating_spec c10SampleNode).2 c10SampleField (by decide) (by decide)⟩

end Storefront
